import Mathlib

/-!
# Verification of the Ectoplasm contracts pricing/trading core

Shallow embedding of the bonding-curve engine (`contracts/bonding-curve/src/curves.rs`),
the BondingMarket state machine (`contracts/bonding-curve/src/main.rs`), the AmmPool
constant-product engine (`contracts/pair/src/main.rs`) and the Router pure math
(`contracts/router/src/main.rs`), together with theorems settling the stated claims.

Modelling conventions:
* `U256`/`U512` values are embedded as `Nat`.  The `uint` crate used by the source
  panics (aborting and rolling back the whole transaction) on subtraction underflow;
  wherever the source performs an unguarded `-` on `U256`/`U512` inside a state
  transition we model it with a checked subtraction that fails with a `panic`-style
  error.  Multiplication overflow is not modelled: all quantities reached in the
  claims stay far below `2^256`/`2^512`.
* Every contract entry point becomes a function `State → args → Except Err (State × ret)`;
  `runtime::revert` and arithmetic panics become `Except.error`, which discards the
  state, matching the chain's atomic rollback of a failed transaction.
* External collaborator reads (token balances held by the pool) are parameters of the
  embedded entry points, matching how the source reads them from the token contracts.
-/

namespace Ectoplasm

/-! ## Curve engine (`curves.rs`), pure functions over `Nat` -/

/-- Curve type identifier (`CurveType` in `curves.rs`). -/
inductive CurveType where
  | linear
  | sigmoid
  | steep
deriving DecidableEq, Repr

/-- Precision multiplier for fixed-point arithmetic, 18 decimals (`PRECISION`). -/
def PRECISION : Nat := 1000000000000000000

/-- Source `calculate_linear_price`: `base + progress * (max - base) / precision`. -/
def calculate_linear_price (progress base_price max_price precision : Nat) : Nat :=
  let price_range := max_price - base_price
  base_price + (progress * price_range) / precision

/-- Source `calculate_sigmoid_price`: smoothstep `3x^2 - 2x^3`, all terms scaled by
`precision`, with the `(3 - 2*progress)` factor floored at zero. -/
def calculate_sigmoid_price (progress base_price max_price precision : Nat) : Nat :=
  let progress_squared := (progress * progress) / precision
  let three_scaled := 3 * precision
  let two_progress := 2 * progress
  let factor := if three_scaled > two_progress then three_scaled - two_progress else 0
  let sigmoid_progress := (progress_squared * factor) / precision
  let price_range := max_price - base_price
  base_price + (sigmoid_progress * price_range) / precision

/-- Source `calculate_steep_price`: quadratic growth `base + progress^2 * (max-base)`. -/
def calculate_steep_price (progress base_price max_price precision : Nat) : Nat :=
  let steep_progress := (progress * progress) / precision
  let price_range := max_price - base_price
  base_price + (steep_progress * price_range) / precision

/-- Source `calculate_price`: spot price from curve type and progress
`progress = tokens_sold * PRECISION / total_supply`. -/
def calculate_price (curve_type : CurveType) (tokens_sold total_supply base_price
    max_price : Nat) : Nat :=
  if total_supply = 0 then base_price
  else
    let progress := (tokens_sold * PRECISION) / total_supply
    match curve_type with
    | .linear => calculate_linear_price progress base_price max_price PRECISION
    | .sigmoid => calculate_sigmoid_price progress base_price max_price PRECISION
    | .steep => calculate_steep_price progress base_price max_price PRECISION

/-- Source `calculate_tokens_for_cspr`: spot-price approximation
`tokens = cspr_amount * 10^18 / price`, capped at the remaining supply. -/
def calculate_tokens_for_cspr (curve_type : CurveType) (cspr_amount current_sold
    total_supply base_price max_price : Nat) : Nat :=
  if cspr_amount = 0 ∨ total_supply = 0 then 0
  else
    let current_price :=
      calculate_price curve_type current_sold total_supply base_price max_price
    if current_price = 0 then 0
    else
      let token_decimals := 1000000000000000000
      let tokens_raw := (cspr_amount * token_decimals) / current_price
      let remaining := total_supply - current_sold
      min tokens_raw remaining

/-- Source `calculate_cspr_for_tokens`: midpoint-price approximation
`cspr = tokens * price((current_sold + sell_from)/2) / 10^18`. -/
def calculate_cspr_for_tokens (curve_type : CurveType) (token_amount current_sold
    total_supply base_price max_price : Nat) : Nat :=
  if token_amount = 0 ∨ current_sold = 0 then 0
  else
    let sell_from := if current_sold > token_amount then current_sold - token_amount else 0
    let avg_sold := (current_sold + sell_from) / 2
    let avg_price := calculate_price curve_type avg_sold total_supply base_price max_price
    let token_decimals := 1000000000000000000
    (token_amount * avg_price) / token_decimals

/-! ## Association list for the `purchases` dictionary

The source stores per-buyer contributions in a Casper dictionary keyed by the
hex-encoded account hash.  We model accounts as `Nat` and the dictionary as an
association list; `alGet` returns `0` for absent keys, matching
`dictionary_get(...).unwrap_or_default().unwrap_or(U512::zero())`. -/

/-- Dictionary lookup defaulting to zero. -/
def alGet (l : List (Nat × Nat)) (k : Nat) : Nat :=
  match l.find? (fun p => p.1 = k) with
  | some p => p.2
  | none => 0

/-- Dictionary write (`dictionary_put`): replace the first binding of `k`,
or append a fresh one. -/
def alSet (l : List (Nat × Nat)) (k v : Nat) : List (Nat × Nat) :=
  match l with
  | [] => [(k, v)]
  | p :: rest => if p.1 = k then (k, v) :: rest else p :: alSet rest k v

/-- Sum of all stored values: the total contribution currently recorded. -/
def alSum (l : List (Nat × Nat)) : Nat :=
  l.foldr (fun p s => p.2 + s) 0

/-! ## BondingMarket state machine (`bonding-curve/src/main.rs`) -/

/-- Error codes of `bonding-curve/src/error.rs`, plus `panicArith` for the
abort the `uint` crate raises on `U256`/`U512` subtraction underflow (which,
like `revert`, rolls the whole transaction back). -/
inductive BondingCurveError where
  | alreadyInitialized
  | notInitialized
  | unauthorized
  | insufficientPayment
  | insufficientTokens
  | insufficientLiquidity
  | curveNotActive
  | curveAlreadyGraduated
  | graduationThresholdNotMet
  | refundNotAvailable
  | deadlineNotReached
  | noRefundAvailable
  | invalidCurveType
  | invalidAmount
  | transferFailed
  | milestoneNotUnlocked
  | noPromoToWithdraw
  | overflow
  | divisionByZero
  | lockedReentrancy
  | panicArith
deriving DecidableEq, Repr

/-- Checked subtraction: `uint` subtraction panics on underflow. -/
def usub (a b : Nat) : Except BondingCurveError Nat :=
  if b ≤ a then .ok (a - b) else .error .panicArith

/-- Status values (`STATUS_ACTIVE`, `STATUS_GRADUATED`, `STATUS_REFUNDING`). -/
def STATUS_ACTIVE : Nat := 0

def STATUS_GRADUATED : Nat := 1

def STATUS_REFUNDING : Nat := 2

/-- The named-key storage of one bonding-curve contract instance.  The curve
type is stored parsed (the source stores the `u8` and re-parses it with
`CurveType::from_u8` at each use; the claims only concern valid curve types). -/
structure MarketState where
  curveType : CurveType
  graduationThreshold : Nat
  platformFeeBps : Nat
  creatorFeeBps : Nat
  deadline : Nat
  csprRaised : Nat
  tokensSold : Nat
  totalSupply : Nat
  basePrice : Nat
  maxPrice : Nat
  status : Nat
  purchases : List (Nat × Nat)
  promoBudget : Nat
  promoReleased : Nat
  accumulatedFees : Nat
  locked : Bool
deriving Repr

/-- The freshly deployed market: zero sold, zero raised, `Active`, unlocked
(`call` in `bonding-curve/src/main.rs`). -/
def MarketState.initial (curveType : CurveType) (graduationThreshold platformFeeBps
    creatorFeeBps deadline totalSupply basePrice maxPrice promoBudget : Nat) :
    MarketState where
  curveType := curveType
  graduationThreshold := graduationThreshold
  platformFeeBps := platformFeeBps
  creatorFeeBps := creatorFeeBps
  deadline := deadline
  csprRaised := 0
  tokensSold := 0
  totalSupply := totalSupply
  basePrice := basePrice
  maxPrice := maxPrice
  status := STATUS_ACTIVE
  purchases := []
  promoBudget := promoBudget
  promoReleased := 0
  accumulatedFees := 0
  locked := false

/-- The `buy` entry point.  `caller` is the buying account, `cspr_amount` the named
arg `amount`.  The platform-fee transfer and the `Ledger.mint` call act on
collaborators, not on this state.  On every `revert` path the transaction's
writes (including the lock) are rolled back, so reverts simply return the
error. -/
def buy (s : MarketState) (caller : Nat) (cspr_amount : Nat) :
    Except BondingCurveError (MarketState × Nat) := do
  if s.status ≠ STATUS_ACTIVE then throw .curveNotActive
  if s.locked then throw .lockedReentrancy
  if cspr_amount = 0 then throw .invalidAmount
  let platform_fee := (cspr_amount * s.platformFeeBps) / 10000
  let creator_fee := (cspr_amount * s.creatorFeeBps) / 10000
  let cspr_for_curve ← usub (← usub cspr_amount platform_fee) creator_fee
  let tokens_to_buy := calculate_tokens_for_cspr s.curveType cspr_for_curve
    s.tokensSold s.totalSupply s.basePrice s.maxPrice
  if tokens_to_buy = 0 then throw .invalidAmount
  let remaining ← usub s.totalSupply s.tokensSold
  if tokens_to_buy > remaining then throw .insufficientLiquidity
  let existing := alGet s.purchases caller
  let s' := { s with
    tokensSold := s.tokensSold + tokens_to_buy
    csprRaised := s.csprRaised + cspr_for_curve
    accumulatedFees := s.accumulatedFees + creator_fee
    purchases := alSet s.purchases caller (existing + cspr_for_curve) }
  return (s', tokens_to_buy)

/-- The `sell` entry point.  The token burn, the CSPR transfer to the seller and the
platform-fee transfer act on collaborators.  Note the source checks
`cspr_to_return > cspr_raised` but then subtracts the gross `cspr_raw` from
`cspr_raised`; the subtraction is the `uint` panic modelled by `usub`. -/
def sell (s : MarketState) (token_amount : Nat) :
    Except BondingCurveError (MarketState × Nat) := do
  if s.status ≠ STATUS_ACTIVE then throw .curveNotActive
  if s.locked then throw .lockedReentrancy
  if token_amount = 0 then throw .invalidAmount
  if token_amount > s.tokensSold then throw .insufficientTokens
  let cspr_raw := calculate_cspr_for_tokens s.curveType token_amount s.tokensSold
    s.totalSupply s.basePrice s.maxPrice
  let platform_fee := (cspr_raw * s.platformFeeBps) / 10000
  let creator_fee := (cspr_raw * s.creatorFeeBps) / 10000
  let cspr_to_return ← usub (← usub cspr_raw platform_fee) creator_fee
  if cspr_to_return > s.csprRaised then throw .insufficientLiquidity
  let newTokensSold ← usub s.tokensSold token_amount
  let newCsprRaised ← usub s.csprRaised cspr_raw
  let s' := { s with
    tokensSold := newTokensSold
    csprRaised := newCsprRaised
    accumulatedFees := s.accumulatedFees + creator_fee }
  return (s', cspr_to_return)

/-- The `claim_refund` entry point; `current_time` is the block time read by
`get_current_time()`. -/
def claim_refund (s : MarketState) (caller : Nat) (current_time : Nat) :
    Except BondingCurveError (MarketState × Nat) := do
  if s.locked then throw .lockedReentrancy
  if s.status = STATUS_GRADUATED then throw .refundNotAvailable
  if current_time < s.deadline then throw .deadlineNotReached
  let s₁ := if s.status = STATUS_ACTIVE then { s with status := STATUS_REFUNDING } else s
  let purchase_amount := alGet s₁.purchases caller
  if purchase_amount = 0 then throw .noRefundAvailable
  let s₂ := { s₁ with purchases := alSet s₁.purchases caller 0 }
  return (s₂, purchase_amount)

/-- The `graduate` entry point. -/
def graduate (s : MarketState) :
    Except BondingCurveError (MarketState × Bool) := do
  if s.status ≠ STATUS_ACTIVE then throw .curveNotActive
  if s.locked then throw .lockedReentrancy
  if s.csprRaised < s.graduationThreshold then throw .graduationThresholdNotMet
  return ({ s with status := STATUS_GRADUATED }, true)

/-- The `withdraw_fees` entry point (creator-only; the authorization check compares
collaborator addresses and is assumed to pass — it does not touch the fields the
claims are about). -/
def withdraw_fees (s : MarketState) :
    Except BondingCurveError (MarketState × Nat) := do
  if s.accumulatedFees = 0 then throw .noPromoToWithdraw
  return ({ s with accumulatedFees := 0 }, s.accumulatedFees)

/-- Progress toward graduation in percent, capped at 100
(`claim_promo_milestone`, first block). -/
def promo_progress_pct (s : MarketState) : Nat :=
  if s.graduationThreshold = 0 then 0
  else min ((s.csprRaised * 100) / s.graduationThreshold) 100

/-- Milestone tier reached: the highest of 25/50/75/100 whose progress
threshold is met (`claim_promo_milestone`, milestone ladder). -/
def promo_entitled_pct (s : MarketState) : Nat :=
  if promo_progress_pct s ≥ 100 then 100
  else if promo_progress_pct s ≥ 75 then 75
  else if promo_progress_pct s ≥ 50 then 50
  else if promo_progress_pct s ≥ 25 then 25
  else 0

/-- Newly claimable promo budget: `entitled − released`, floored at zero. -/
def promo_claimable (s : MarketState) : Nat :=
  let entitled_amount := (s.promoBudget * promo_entitled_pct s) / 100
  if entitled_amount > s.promoReleased then entitled_amount - s.promoReleased
  else 0

/-- The `claim_promo_milestone` entry point (creator-only, as above). -/
def claim_promo_milestone (s : MarketState) :
    Except BondingCurveError (MarketState × Nat) := do
  let claimable := promo_claimable s
  if claimable = 0 then throw .milestoneNotUnlocked
  return ({ s with promoReleased := s.promoReleased + claimable }, claimable)

/-! ### Operation sequences over a market

One top-level call per step; a failed call aborts its transaction, so the
state is left unchanged.  (`sell` and `claim_refund` are treated separately
by the claims that concern them.) -/

/-- The operations of the funds-conservation claim that do keep
`funds_raised` and the `purchases` dictionary in sync. -/
inductive MarketOp where
  | buyOp (caller amount : Nat)
  | graduateOp
  | withdrawFeesOp
  | claimPromoOp

/-- Run one top-level call; a revert rolls every write back. -/
def applyOp (s : MarketState) (op : MarketOp) : MarketState :=
  match op with
  | .buyOp c a =>
    match buy s c a with
    | .ok p => p.1
    | .error _ => s
  | .graduateOp =>
    match graduate s with
    | .ok p => p.1
    | .error _ => s
  | .withdrawFeesOp =>
    match withdraw_fees s with
    | .ok p => p.1
    | .error _ => s
  | .claimPromoOp =>
    match claim_promo_milestone s with
    | .ok p => p.1
    | .error _ => s

/-! ## AmmPool constant-product engine (`pair/src/main.rs`) -/

/-- Pair failures: `ApiError::User code` reverts (`ERROR_*` constants of
`pair/src/main.rs`) plus the `uint` subtraction-underflow panic. -/
inductive PairError where
  | user (code : Nat)
  | panicArith
deriving DecidableEq, Repr

def ERROR_INSUFFICIENT_LIQUIDITY : Nat := 3

def ERROR_INSUFFICIENT_INPUT_AMOUNT : Nat := 4

def ERROR_INSUFFICIENT_OUTPUT_AMOUNT : Nat := 5

def ERROR_INSUFFICIENT_LIQUIDITY_MINTED : Nat := 6

def ERROR_K : Nat := 9

def ERROR_LOCKED : Nat := 10

/-- Checked `U256` subtraction for the pair contract. -/
def psub (a b : Nat) : Except PairError Nat :=
  if b ≤ a then .ok (a - b) else .error .panicArith

/-- Constant `MINIMUM_LIQUIDITY`: LP units permanently locked at the first deposit. -/
def MINIMUM_LIQUIDITY : Nat := 1000

/-- Newton-iteration loop of `sqrt` in `pair/src/main.rs`:
`while x < z { z = x; x = (y / x + x) / 2; }`. -/
def sqrtLoop (y z x : Nat) : Nat :=
  if x < z then sqrtLoop y x ((y / x + x) / 2) else z
termination_by z
decreasing_by exact ‹x < z›

/-- Integer square root of the pair contract (`sqrt`). -/
def pairSqrt (y : Nat) : Nat :=
  if y > 3 then sqrtLoop y y (y / 2 + 1)
  else if y ≠ 0 then 1
  else 0

/-- Pool state: reserves, the LP ledger, and the reentrancy lock.  LP holders
are modelled as `Nat`; `burnAddress` stands for `Key::Hash([0u8; 32])`, the
sink the first `MINIMUM_LIQUIDITY` units are minted to. -/
structure PairState where
  reserve0 : Nat
  reserve1 : Nat
  lpTotalSupply : Nat
  lpBalances : Nat → Nat
  locked : Bool

/-- The LP sink for the permanently locked minimum liquidity. -/
def burnAddress : Nat := 0

/-- Source `mint_lp`: credit `to` and grow the LP total supply. -/
def mint_lp (s : PairState) (recipient : Nat) (amount : Nat) : PairState :=
  { s with
    lpBalances := fun a => if a = recipient then s.lpBalances recipient + amount else s.lpBalances a
    lpTotalSupply := s.lpTotalSupply + amount }

/-- The `mint` entry point.  `balance0`/`balance1` are the pool's token balances as
reported by the two token contracts after the caller's deposit (the source
reads them via `get_token_balance`). -/
def PairState.mint (s : PairState) (recipient : Nat) (balance0 balance1 : Nat) :
    Except PairError (PairState × Nat) := do
  if s.locked then throw (.user ERROR_LOCKED)
  let amount0 ← psub balance0 s.reserve0
  let amount1 ← psub balance1 s.reserve1
  let (s₁, liquidity) ←
    if s.lpTotalSupply = 0 then do
      let product := amount0 * amount1
      let liquidity ← psub (pairSqrt product) MINIMUM_LIQUIDITY
      pure (mint_lp s burnAddress MINIMUM_LIQUIDITY, liquidity)
    else
      pure (s, min ((amount0 * s.lpTotalSupply) / s.reserve0)
                   ((amount1 * s.lpTotalSupply) / s.reserve1))
  if liquidity = 0 then throw (.user ERROR_INSUFFICIENT_LIQUIDITY_MINTED)
  let s₂ := mint_lp s₁ recipient liquidity
  return ({ s₂ with reserve0 := balance0, reserve1 := balance1 }, liquidity)

/-- The `swap` entry point.  The optimistic output transfers go to the token
collaborators; `balance0`/`balance1` are the balances the pool reads back
afterwards, so they already reflect both the outputs sent and whatever input
the caller put in. -/
def PairState.swap (s : PairState) (amount0_out amount1_out : Nat)
    (balance0 balance1 : Nat) : Except PairError PairState := do
  if s.locked then throw (.user ERROR_LOCKED)
  if amount0_out = 0 ∧ amount1_out = 0 then
    throw (.user ERROR_INSUFFICIENT_OUTPUT_AMOUNT)
  if amount0_out ≥ s.reserve0 ∨ amount1_out ≥ s.reserve1 then
    throw (.user ERROR_INSUFFICIENT_LIQUIDITY)
  let amount0_in :=
    if balance0 > s.reserve0 - amount0_out then balance0 - (s.reserve0 - amount0_out) else 0
  let amount1_in :=
    if balance1 > s.reserve1 - amount1_out then balance1 - (s.reserve1 - amount1_out) else 0
  if amount0_in = 0 ∧ amount1_in = 0 then
    throw (.user ERROR_INSUFFICIENT_INPUT_AMOUNT)
  let balance0_adjusted ← psub (balance0 * 1000) (amount0_in * 3)
  let balance1_adjusted ← psub (balance1 * 1000) (amount1_in * 3)
  let k_before := s.reserve0 * s.reserve1 * 1000 * 1000
  let k_after := balance0_adjusted * balance1_adjusted
  if k_after < k_before then throw (.user ERROR_K)
  return { s with reserve0 := balance0, reserve1 := balance1 }

/-! ## Router pure math (`router/src/main.rs`) -/

/-- Source `quote_internal`: proportional liquidity matching, no fee. -/
def quote_internal (amount_a reserve_a reserve_b : Nat) : Nat :=
  if amount_a = 0 ∨ reserve_a = 0 then 0
  else (amount_a * reserve_b) / reserve_a

/-- Source `get_amount_out_internal`: maximum output for an input, 0.3% fee. -/
def get_amount_out_internal (amount_in reserve_in reserve_out : Nat) : Nat :=
  if amount_in = 0 ∨ reserve_in = 0 ∨ reserve_out = 0 then 0
  else
    let amount_in_with_fee := amount_in * 997
    let numerator := amount_in_with_fee * reserve_out
    let denominator := reserve_in * 1000 + amount_in_with_fee
    numerator / denominator

/-- Source `get_amount_in_internal`: required input for an output, 0.3% fee, rounded
up by the trailing `+ 1`.  (`reserve_out - amount_out` is a `U256` subtraction:
it panics for `amount_out > reserve_out`; the theorems only use it with
`amount_out < reserve_out`, where `Nat` subtraction agrees.) -/
def get_amount_in_internal (amount_out reserve_in reserve_out : Nat) : Nat :=
  if amount_out = 0 ∨ reserve_in = 0 ∨ reserve_out = 0 then 0
  else
    let numerator := reserve_in * amount_out * 1000
    let denominator := (reserve_out - amount_out) * 997
    numerator / denominator + 1

/-! ## Concrete instances used by witnesses and counterexamples -/

/-- A pool with reserves `(10^6, 10^6)`, no LP supply, unlocked. -/
def c1pool : PairState :=
  { reserve0 := 1000000, reserve1 := 1000000, lpTotalSupply := 0,
    lpBalances := fun _ => 0, locked := false }

/-- A freshly created pool: zero reserves, zero LP supply (`call` in
`pair/src/main.rs`). -/
def freshPool : PairState :=
  { reserve0 := 0, reserve1 := 0, lpTotalSupply := 0,
    lpBalances := fun _ => 0, locked := false }

/-- A fee-free Linear market: threshold `10^16`, supply `10^24`, prices
`10^9 → 10^10`. -/
def c2market : MarketState :=
  MarketState.initial CurveType.linear 10000000000000000 0 0 0
    1000000000000000000000000 1000000000 10000000000 0

/-- State `c2market` after `buy` by account `1` of `10^12` motes. -/
def c2afterBuy : MarketState :=
  { c2market with
    tokensSold := 1000000000000000000000
    csprRaised := 1000000000000
    purchases := [(1, 1000000000000)] }

/-- State `c2afterBuy` after account `1` sells `5·10^20` tokens back: `cspr_raised`
drops by the quote while `purchases` is untouched. -/
def c2afterSell : MarketState :=
  { c2market with
    tokensSold := 500000000000000000000
    csprRaised := 496625000000
    purchases := [(1, 1000000000000)] }

/-- Like `c2market` but with a 200 bps platform fee (2%), used to reach the
`sell` underflow. -/
def c6market : MarketState :=
  MarketState.initial CurveType.linear 10000000000000000 200 0 0
    1000000000000000000000000 1000000000 10000000000 0

/-- State `c6market` after `buy` by account `1` of `2·10^12` motes: fee `4·10^10`
goes to the platform, net `1.96·10^12` enters the curve. -/
def c6afterBuy : MarketState :=
  { c6market with
    tokensSold := 1960000000000000000000
    csprRaised := 1960000000000
    purchases := [(1, 1960000000000)] }

/-- A market whose deadline (10) has passed and where account `5` holds a
contribution of `7`, for the refund-idempotence witness. -/
def c7market : MarketState :=
  { c2market with deadline := 10, purchases := [(5, 7)] }

/-- State `freshPool` after the first deposit of `(10000, 10000)` minted to
account `1`. -/
def c8afterMint : PairState :=
  { reserve0 := 10000, reserve1 := 10000, lpTotalSupply := 10000,
    lpBalances := fun a => if a = 1 then 9000 else if a = 0 then 1000 else 0,
    locked := false }

/-! ## Helper lemmas -/

theorem alGet_nil (k : Nat) : alGet [] k = 0 := rfl

theorem alGet_cons (p : Nat × Nat) (l : List (Nat × Nat)) (k : Nat) :
    alGet (p :: l) k = if p.1 = k then p.2 else alGet l k := by
  by_cases h : p.1 = k <;> simp [alGet, List.find?, h]

theorem alGet_alSet_self (l : List (Nat × Nat)) (k v : Nat) :
    alGet (alSet l k v) k = v := by
  induction l with
  | nil => simp [alSet, alGet_cons]
  | cons p rest ih =>
    by_cases h : p.1 = k
    · simp [alSet, h, alGet_cons]
    · simp [alSet, h, alGet_cons, ih]

theorem alSum_cons (p : Nat × Nat) (l : List (Nat × Nat)) :
    alSum (p :: l) = p.2 + alSum l := rfl

theorem alSum_alSet_add (l : List (Nat × Nat)) (k v : Nat) :
    alSum (alSet l k (alGet l k + v)) = alSum l + v := by
  induction l with
  | nil => simp [alSet, alGet_nil, alSum]
  | cons p rest ih =>
    rw [alGet_cons]
    by_cases h : p.1 = k
    · rw [if_pos h]
      show alSum (if p.1 = k then (k, p.2 + v) :: rest else
        p :: alSet rest k (p.2 + v)) = alSum (p :: rest) + v
      rw [if_pos h, alSum_cons, alSum_cons]
      omega
    · rw [if_neg h]
      show alSum (if p.1 = k then (k, alGet rest k + v) :: rest else
        p :: alSet rest k (alGet rest k + v)) = alSum (p :: rest) + v
      rw [if_neg h, alSum_cons, alSum_cons, ih]
      omega

theorem PRECISION_pos : 0 < PRECISION := by decide

/-- The fixed-point progress fraction is `PRECISION` exactly at full supply. -/
theorem progress_at_full (S : Nat) (hS : 0 < S) : S * PRECISION / S = PRECISION :=
  Nat.mul_div_cancel_left _ hS

/-! ## C9: curve endpoint values -/

theorem calculate_price_at_zero (shape : CurveType) (S b m : Nat) (hS : S ≠ 0) :
    calculate_price shape 0 S b m = b := by
  cases shape <;>
    simp [calculate_price, hS, calculate_linear_price, calculate_sigmoid_price,
      calculate_steep_price]

theorem calculate_price_at_full (shape : CurveType) (S b m : Nat) (hS : 0 < S)
    (hbm : b ≤ m) : calculate_price shape S S b m = m := by
  have hP : 0 < PRECISION := PRECISION_pos
  have hcancel : ∀ n : Nat, PRECISION * n / PRECISION = n :=
    fun n => Nat.mul_div_cancel_left n hP
  have hfac : 3 * PRECISION - 2 * PRECISION = PRECISION := by omega
  have hlt : 2 * PRECISION < 3 * PRECISION := by omega
  cases shape <;>
    simp [calculate_price, hS.ne', progress_at_full S hS, calculate_linear_price,
      calculate_sigmoid_price, calculate_steep_price, hcancel, hfac, hlt,
      Nat.add_sub_cancel' hbm]

/-- C9: for every curve shape and `total_supply > 0` with `base ≤ max`, the
spot price is exactly `base` at zero sold; at full supply it is exactly `max`
for Linear and within one fixed-point unit of `max` for Sigmoid and Steep
(the code in fact hits `max` exactly for all three, since the progress
fraction is exactly `PRECISION` there). -/
theorem C9_price_endpoints (shape : CurveType) (S b m : Nat) (hS : 0 < S)
    (hbm : b ≤ m) :
    calculate_price shape 0 S b m = b ∧
    calculate_price CurveType.linear S S b m = m ∧
    calculate_price shape S S b m ≤ m ∧ m ≤ calculate_price shape S S b m + 1 := by
  refine ⟨calculate_price_at_zero shape S b m hS.ne', ?_, ?_, ?_⟩
  · exact calculate_price_at_full .linear S b m hS hbm
  · exact (calculate_price_at_full shape S b m hS hbm).le
  · rw [calculate_price_at_full shape S b m hS hbm]; omega

theorem C9_price_endpoints_witness :
    calculate_price CurveType.sigmoid 0 5 2 9 = 2 ∧
    calculate_price CurveType.linear 5 5 2 9 = 9 ∧
    calculate_price CurveType.sigmoid 5 5 2 9 ≤ 9 ∧
    9 ≤ calculate_price CurveType.sigmoid 5 5 2 9 + 1 := by
  have h := C9_price_endpoints CurveType.sigmoid 5 2 9 (by decide) (by decide)
  have h2 := C9_price_endpoints CurveType.linear 5 2 9 (by decide) (by decide)
  exact ⟨h.1, h2.2.1, h.2.2.1, h.2.2.2⟩

/-! ## C3: price monotonicity in `tokens_sold`

The Linear and Steep shapes are monotone: every arithmetic stage is a
composition of monotone maps.  The Sigmoid shape is *not*: the smoothstep
product multiplies the non-decreasing `progress²/P` by the *decreasing*
`3P − 2·progress` factor, and the floor divisions let the product's floor
drop by one unit at adversarial points.  A concrete decrease is exhibited at
`sold = 499999999·10^9` with `total_supply = 10^18` (so `progress = sold`),
`base = 0`, `max = 10^18`. -/

theorem calculate_linear_price_mono (p q b m P : Nat) (h : p ≤ q) :
    calculate_linear_price p b m P ≤ calculate_linear_price q b m P :=
  Nat.add_le_add_left (Nat.div_le_div_right (Nat.mul_le_mul_right _ h)) _

theorem calculate_steep_price_mono (p q b m P : Nat) (h : p ≤ q) :
    calculate_steep_price p b m P ≤ calculate_steep_price q b m P := by
  unfold calculate_steep_price
  exact Nat.add_le_add_left (Nat.div_le_div_right (Nat.mul_le_mul_right _
    (Nat.div_le_div_right (Nat.mul_le_mul h h)))) _

/-- C3 (amended): the spot price is monotonically non-decreasing in `sold`
for the Linear and Steep shapes. -/
theorem C3_price_mono_linear_steep (shape : CurveType)
    (hshape : shape = CurveType.linear ∨ shape = CurveType.steep)
    (S b m sold sold' : Nat) (hS : 0 < S) (hbm : b ≤ m)
    (h1 : sold ≤ sold') (h2 : sold' ≤ S) :
    calculate_price shape sold S b m ≤ calculate_price shape sold' S b m := by
  have hprog : sold * PRECISION / S ≤ sold' * PRECISION / S :=
    Nat.div_le_div_right (Nat.mul_le_mul_right _ h1)
  rcases hshape with h | h <;> subst h <;> simp only [calculate_price, hS.ne', if_false]
  · exact calculate_linear_price_mono _ _ _ _ _ hprog
  · exact calculate_steep_price_mono _ _ _ _ _ hprog

theorem C3_price_mono_linear_steep_witness :
    calculate_price CurveType.steep 3 7 10 900 ≤
      calculate_price CurveType.steep 5 7 10 900 :=
  C3_price_mono_linear_steep CurveType.steep (Or.inr rfl) 7 10 900 3 5
    (by decide) (by decide) (by decide) (by decide)

/-- C3 (counterexample): for the Sigmoid shape the price *decreases* by one
unit between `sold` and `sold + 1` at the point below, although
`sold ≤ sold + 1 ≤ total_supply`, `total_supply > 0` and `base ≤ max`. -/
theorem C3_sigmoid_price_decreases :
    calculate_price CurveType.sigmoid (499999999000000000 + 1)
        1000000000000000000 0 1000000000000000000 <
      calculate_price CurveType.sigmoid 499999999000000000
        1000000000000000000 0 1000000000000000000 ∧
    (0 : Nat) < 1000000000000000000 ∧ (0 : Nat) ≤ 1000000000000000000 ∧
    499999999000000000 + 1 ≤ 1000000000000000000 := by
  refine ⟨?_, by decide, by decide, by decide⟩
  decide

/-! ## C4: router rounding

The composition `get_amount_in (get_amount_out x)` can fall *below* `x`: the
floor inside `get_amount_out` can discard most of a small trade, after which
the required input for the smaller output is genuinely less than `x`.
Already `x = 2, rIn = 1, rOut = 3` gives `out = 1` and required input `1 < 2`.
What does hold — and what the `+ 1` in `get_amount_in_internal` is for — is
the reverse composition: the input quoted for a desired output is always
enough to buy at least that output. -/

theorem C4_roundtrip_counterexample :
    get_amount_in_internal (get_amount_out_internal 2 1 3) 1 3 < 2 ∧
    get_amount_out_internal 2 1 3 = 1 ∧
    (0 : Nat) < 2 ∧ (0 : Nat) < 1 ∧ (0 : Nat) < 3 := by decide

/-- C4 (amended): the router's quoted input never under-pays — for every
desired output `0 < y < reserve_out` and positive `reserve_in`,
`get_amount_out (get_amount_in y rIn rOut) rIn rOut ≥ y`. -/
theorem C4_quoted_input_suffices (y rIn rOut : Nat) (hy : 0 < y)
    (hrIn : 0 < rIn) (hyr : y < rOut) :
    y ≤ get_amount_out_internal (get_amount_in_internal y rIn rOut) rIn rOut := by
  have hrOut : 0 < rOut := lt_of_le_of_lt (Nat.zero_le y) hyr
  have hM : 0 < (rOut - y) * 997 := Nat.mul_pos (by omega) (by norm_num)
  have hin : get_amount_in_internal y rIn rOut =
      rIn * y * 1000 / ((rOut - y) * 997) + 1 := by
    unfold get_amount_in_internal
    rw [if_neg (by push_neg; exact ⟨hy.ne', hrIn.ne', hrOut.ne'⟩)]
  rw [hin]
  set i := rIn * y * 1000 / ((rOut - y) * 997) + 1 with hi
  have hipos : 0 < i := Nat.succ_pos _
  have key : rIn * y * 1000 < i * ((rOut - y) * 997) := by
    have hmod : rIn * y * 1000 % ((rOut - y) * 997) < (rOut - y) * 997 :=
      Nat.mod_lt _ hM
    have hdm : (rOut - y) * 997 * (rIn * y * 1000 / ((rOut - y) * 997)) +
        rIn * y * 1000 % ((rOut - y) * 997) = rIn * y * 1000 :=
      Nat.div_add_mod _ _
    calc rIn * y * 1000
        = (rOut - y) * 997 * (rIn * y * 1000 / ((rOut - y) * 997)) +
            rIn * y * 1000 % ((rOut - y) * 997) := hdm.symm
      _ < (rOut - y) * 997 * (rIn * y * 1000 / ((rOut - y) * 997)) +
            (rOut - y) * 997 := by omega
      _ = i * ((rOut - y) * 997) := by rw [hi]; ring
  unfold get_amount_out_internal
  rw [if_neg (by push_neg; exact ⟨hipos.ne', hrIn.ne', hrOut.ne'⟩)]
  rw [Nat.le_div_iff_mul_le (by positivity)]
  have hsum : (rOut - y) + y = rOut := Nat.sub_add_cancel hyr.le
  calc y * (rIn * 1000 + i * 997)
      = rIn * y * 1000 + i * 997 * y := by ring
    _ ≤ i * ((rOut - y) * 997) + i * 997 * y := Nat.add_le_add_right key.le _
    _ = i * 997 * ((rOut - y) + y) := by ring
    _ = i * 997 * rOut := by rw [hsum]

theorem C4_quoted_input_suffices_witness :
    1 ≤ get_amount_out_internal (get_amount_in_internal 1 1 3) 1 3 :=
  C4_quoted_input_suffices 1 1 3 (by decide) (by decide) (by decide)

/-! ## C1: the fee-adjusted K invariant of `swap` -/

theorem psub_of_le {a b : Nat} (h : b ≤ a) : psub a b = .ok (a - b) := by
  unfold psub; rw [if_pos h]

theorem psub_eq_ok {a b v : Nat} (h : psub a b = .ok v) : b ≤ a ∧ v = a - b := by
  unfold psub at h
  split at h
  · refine ⟨‹b ≤ a›, ?_⟩
    cases h
    rfl
  · exact absurd h (by simp)

/-- C1: a successful `swap` with pre-state reserves `r0, r1` and post-transfer
balances `b0, b1` commits `reserves := balances` and satisfies
`(b0·1000 − 3·in0)·(b1·1000 − 3·in1) ≥ r0·r1·1000²`, where
`in_i = max(balance_i − (reserve_i − amount_i_out), 0)` (here the truncating
`Nat` subtraction `b_i - (r_i - out_i)` is exactly that clamp); and whenever the
guards admit the call but the inequality fails, `swap` reverts with error `K`
(`ApiError::User(9)`) and, the transaction being rolled back, commits no
reserve change. -/
theorem C1_swap_k_invariant (s : PairState) (a0out a1out b0 b1 : Nat) :
    (∀ s', PairState.swap s a0out a1out b0 b1 = .ok s' →
      s.reserve0 * s.reserve1 * 1000 * 1000 ≤
        (b0 * 1000 - (b0 - (s.reserve0 - a0out)) * 3) *
          (b1 * 1000 - (b1 - (s.reserve1 - a1out)) * 3) ∧
      s'.reserve0 = b0 ∧ s'.reserve1 = b1) ∧
    (s.locked = false → ¬(a0out = 0 ∧ a1out = 0) →
      a0out < s.reserve0 → a1out < s.reserve1 →
      ¬(b0 - (s.reserve0 - a0out) = 0 ∧ b1 - (s.reserve1 - a1out) = 0) →
      (b0 * 1000 - (b0 - (s.reserve0 - a0out)) * 3) *
          (b1 * 1000 - (b1 - (s.reserve1 - a1out)) * 3) <
        s.reserve0 * s.reserve1 * 1000 * 1000 →
      PairState.swap s a0out a1out b0 b1 = .error (.user ERROR_K)) := by
  have e0 : (if b0 > s.reserve0 - a0out then b0 - (s.reserve0 - a0out) else 0) =
      b0 - (s.reserve0 - a0out) := by split <;> omega
  have e1 : (if b1 > s.reserve1 - a1out then b1 - (s.reserve1 - a1out) else 0) =
      b1 - (s.reserve1 - a1out) := by split <;> omega
  have h0 : (b0 - (s.reserve0 - a0out)) * 3 ≤ b0 * 1000 := by omega
  have h1 : (b1 - (s.reserve1 - a1out)) * 3 ≤ b1 * 1000 := by omega
  constructor
  · intro s' h
    unfold PairState.swap at h
    simp only [e0, e1] at h
    simp only [psub_of_le h0, psub_of_le h1] at h
    simp only [throw, throwThe, MonadExceptOf.throw, bind, Except.bind, pure,
      Except.pure] at h
    split at h
    · exact absurd h (by simp)
    split at h
    · exact absurd h (by simp)
    split at h
    · exact absurd h (by simp)
    split at h
    · exact absurd h (by simp)
    split at h
    · exact absurd h (by simp)
    · simp only [Except.ok.injEq] at h
      subst h
      refine ⟨by omega, rfl, rfl⟩
  · intro hlock hout hres0 hres1 hin hk
    have hres : ¬(a0out ≥ s.reserve0 ∨ a1out ≥ s.reserve1) := by omega
    unfold PairState.swap
    simp only [e0, e1]
    simp only [psub_of_le h0, psub_of_le h1]
    simp only [throw, throwThe, MonadExceptOf.throw, bind, Except.bind, pure,
      Except.pure, hlock]
    rw [if_neg (by simp), if_neg hout, if_neg hres, if_neg hin, if_pos hk]

theorem C1_swap_k_invariant_witness :
    (c1pool.reserve0 * c1pool.reserve1 * 1000 * 1000 ≤
      (1001000 * 1000 - (1001000 - (c1pool.reserve0 - 0)) * 3) *
        (999100 * 1000 - (999100 - (c1pool.reserve1 - 900)) * 3)) ∧
    PairState.swap c1pool 100 0 999900 1000001 = .error (.user ERROR_K) := by
  constructor
  · exact ((C1_swap_k_invariant c1pool 0 900 1001000 999100).1
      { c1pool with reserve0 := 1001000, reserve1 := 999100 } rfl).1
  · exact (C1_swap_k_invariant c1pool 100 0 999900 1000001).2 rfl (by decide)
      (by decide) (by decide) (by decide) (by decide)

/-! ## C8: first-deposit liquidity and the pair's Newton square root

`sqrt` in `pair/src/main.rs` is Newton's method on integers; we first show it
computes exactly `Nat.sqrt` (the floor square root), then characterize the
first `mint`. -/

/-- One Newton step from any positive `x` lands at or above the floor square
root: `(y/x + x)/2 ≥ ⌊√y⌋`. -/
theorem newton_step_ge_sqrt (y x : Nat) (hx : 0 < x) :
    Nat.sqrt y ≤ (y / x + x) / 2 := by
  by_contra hcon
  push_neg at hcon
  have h2 : y / x + x < Nat.sqrt y * 2 :=
    (Nat.div_lt_iff_lt_mul (by norm_num)).mp hcon
  have hlow : y < (y / x + 1) * x := by
    have hmod := Nat.mod_lt y hx
    have hdm := Nat.div_add_mod y x
    calc y = x * (y / x) + y % x := hdm.symm
      _ < x * (y / x) + x := by omega
      _ = (y / x + 1) * x := by ring
  have hs : Nat.sqrt y * Nat.sqrt y ≤ y := Nat.sqrt_le y
  -- put everything in ℤ and derive (s − x)² + 1 ≤ 0
  have hq : (y / x : ℤ) + x < 2 * Nat.sqrt y := by exact_mod_cast by omega
  have hlow' : (y : ℤ) < ((y / x : Nat) + 1) * x := by exact_mod_cast hlow
  have hs' : (Nat.sqrt y : ℤ) * Nat.sqrt y ≤ y := by exact_mod_cast hs
  have hx' : (1 : ℤ) ≤ x := by exact_mod_cast hx
  nlinarith [sq_nonneg ((Nat.sqrt y : ℤ) - x),
    mul_le_mul_of_nonneg_right
      (by linarith : (y / x : ℤ) ≤ 2 * Nat.sqrt y - x - 1)
      (by linarith : (0 : ℤ) ≤ x)]

/-- The Newton loop returns exactly `Nat.sqrt y` whenever both iterates are
at or above `⌊√y⌋ ≥ 2` and the exit value is certified below it. -/
theorem sqrtLoop_eq_sqrt (y : Nat) (hy : 2 ≤ Nat.sqrt y) :
    ∀ z, ∀ x, Nat.sqrt y ≤ z → Nat.sqrt y ≤ x → (z ≤ x → z * z ≤ y) →
      sqrtLoop y z x = Nat.sqrt y := by
  intro z
  induction z using Nat.strong_induction_on with
  | _ z ih =>
    intro x hz hx hzx
    unfold sqrtLoop
    split
    · have hxpos : 0 < x := by omega
      refine ih x ‹x < z› _ hx (newton_step_ge_sqrt y x hxpos) ?_
      intro hle
      have : x * 2 ≤ y / x + x := by
        have := (Nat.le_div_iff_mul_le (by norm_num : 0 < 2)).mp hle
        omega
      have : x ≤ y / x := by omega
      exact (Nat.le_div_iff_mul_le hxpos).mp this
    · have hzz : z * z ≤ y := hzx (by omega)
      have : z ≤ Nat.sqrt y := Nat.le_sqrt.mpr hzz
      omega

/-- The pair contract's integer square root is the floor square root. -/
theorem pairSqrt_eq_sqrt (y : Nat) : pairSqrt y = Nat.sqrt y := by
  unfold pairSqrt
  split
  · have hy4 : 4 ≤ y := by omega
    have hy : 2 ≤ Nat.sqrt y := Nat.le_sqrt.mpr (by omega)
    refine sqrtLoop_eq_sqrt y hy y (y / 2 + 1) (Nat.sqrt_le_self y) ?_ ?_
    · have h1 : Nat.sqrt y * 2 ≤ Nat.sqrt y * Nat.sqrt y :=
        Nat.mul_le_mul_left _ hy
      have h2 : Nat.sqrt y * Nat.sqrt y ≤ y := Nat.sqrt_le y
      have : Nat.sqrt y ≤ y / 2 := (Nat.le_div_iff_mul_le (by norm_num)).mpr
        (by omega)
      omega
    · intro hcon
      exact absurd hcon (by omega)
  · split
    · have hy3 : y ≤ 3 := by omega
      have hy0 : y ≠ 0 := by assumption
      interval_cases y
      · exact absurd rfl hy0
      · norm_num
      · norm_num
      · norm_num
    · have hy0 : y = 0 := by omega
      subst hy0; rfl

/-- C8: a first deposit (`lp_total_supply == 0`) that succeeds credits the
recipient exactly `⌊√(amount0·amount1)⌋ − 1000` LP units, mints the 1000
locked units to the burn address, and leaves the LP total at
`1000 + liquidity`; the measured amounts are `amount_i = balance_i − reserve_i`. -/
theorem C8_first_mint (s : PairState) (recipient b0 b1 : Nat)
    (h0 : s.lpTotalSupply = 0) (hrec : recipient ≠ burnAddress) :
    ∀ s' liq, PairState.mint s recipient b0 b1 = .ok (s', liq) →
      liq = Nat.sqrt ((b0 - s.reserve0) * (b1 - s.reserve1)) - 1000 ∧
      s'.lpBalances recipient = s.lpBalances recipient + liq ∧
      s'.lpBalances burnAddress = s.lpBalances burnAddress + 1000 ∧
      s'.lpTotalSupply = 1000 + liq ∧
      s'.reserve0 = b0 ∧ s'.reserve1 = b1 := by
  intro s' liq h
  unfold PairState.mint at h
  simp only [throw, throwThe, MonadExceptOf.throw, bind, Except.bind, pure,
    Except.pure, h0, reduceIte] at h
  split at h
  · exact absurd h (by simp)
  split at h
  case h_1 => exact absurd h (by simp)
  case h_2 v heq0 =>
    split at h
    case h_1 => exact absurd h (by simp)
    case h_2 w heq1 =>
      split at h
      case h_1 => exact absurd h (by simp)
      case h_2 u hequ =>
        split at h
        · exact absurd h (by simp)
        case isFalse hu =>
          simp only [Except.ok.injEq, Prod.mk.injEq] at h
          obtain ⟨hs', hliq⟩ := h
          obtain ⟨hv0, hv⟩ := psub_eq_ok heq0
          obtain ⟨hw0, hw⟩ := psub_eq_ok heq1
          obtain ⟨hu0, huv⟩ := psub_eq_ok hequ
          subst hs' hliq hv hw
          rw [pairSqrt_eq_sqrt] at huv hu0
          refine ⟨by rw [huv]; rfl, ?_, ?_, ?_, rfl, rfl⟩
          · simp [mint_lp, hrec]
          · simp [mint_lp, Ne.symm hrec, hrec, MINIMUM_LIQUIDITY]
          · simp [mint_lp, h0, MINIMUM_LIQUIDITY]

/-- Symbolic form of a successful first deposit, used to evaluate the concrete
witness without unfolding the well-founded `sqrtLoop`. -/
theorem mint_first_eval (s : PairState) (recipient b0 b1 : Nat)
    (h0 : s.lpTotalSupply = 0) (hlock : s.locked = false)
    (h1 : s.reserve0 ≤ b0) (h2 : s.reserve1 ≤ b1)
    (hmin : 1000 < Nat.sqrt ((b0 - s.reserve0) * (b1 - s.reserve1))) :
    PairState.mint s recipient b0 b1 =
      .ok ({ mint_lp (mint_lp s burnAddress MINIMUM_LIQUIDITY) recipient
               (Nat.sqrt ((b0 - s.reserve0) * (b1 - s.reserve1)) -
                 MINIMUM_LIQUIDITY)
             with reserve0 := b0, reserve1 := b1 },
           Nat.sqrt ((b0 - s.reserve0) * (b1 - s.reserve1)) -
             MINIMUM_LIQUIDITY) := by
  have hsq : pairSqrt ((b0 - s.reserve0) * (b1 - s.reserve1)) =
      Nat.sqrt ((b0 - s.reserve0) * (b1 - s.reserve1)) := pairSqrt_eq_sqrt _
  have hml : MINIMUM_LIQUIDITY ≤
      Nat.sqrt ((b0 - s.reserve0) * (b1 - s.reserve1)) := by
    rw [MINIMUM_LIQUIDITY]; omega
  have hne : ¬(Nat.sqrt ((b0 - s.reserve0) * (b1 - s.reserve1)) -
      MINIMUM_LIQUIDITY = 0) := by
    rw [MINIMUM_LIQUIDITY]; omega
  unfold PairState.mint
  simp only [throw, throwThe, MonadExceptOf.throw, bind, Except.bind, pure,
    Except.pure, hlock, Bool.false_eq_true, if_false, psub_of_le h1,
    psub_of_le h2, h0, if_pos, reduceIte, hsq, psub_of_le hml, if_neg hne]

/-- Evaluating the first deposit concretely: `mint(10000, 10000)` on the fresh
pool credits `9000 = √(10^8) − 1000` to the recipient and brings the LP total
to `10000`. -/
theorem mint_freshPool_eval :
    PairState.mint freshPool 1 10000 10000 = .ok (c8afterMint, 9000) := by
  have hs : Nat.sqrt ((10000 - freshPool.reserve0) * (10000 - freshPool.reserve1))
      = 10000 := by
    norm_num [freshPool]
  rw [mint_first_eval freshPool 1 10000 10000 rfl rfl (by norm_num [freshPool])
    (by norm_num [freshPool]) (by rw [hs]; norm_num)]
  rw [hs]
  rfl

theorem C8_first_mint_witness :
    (9000 : Nat) =
      Nat.sqrt ((10000 - freshPool.reserve0) * (10000 - freshPool.reserve1))
        - 1000 ∧
    c8afterMint.lpBalances 1 = freshPool.lpBalances 1 + 9000 ∧
    c8afterMint.lpBalances burnAddress = freshPool.lpBalances burnAddress + 1000 ∧
    c8afterMint.lpTotalSupply = 1000 + 9000 ∧
    c8afterMint.reserve0 = 10000 ∧ c8afterMint.reserve1 = 10000 :=
  C8_first_mint freshPool 1 10000 10000 rfl (by decide) c8afterMint 9000
    mint_freshPool_eval

/-! ## BondingMarket lemmas -/

theorem usub_of_le {a b : Nat} (h : b ≤ a) : usub a b = .ok (a - b) := by
  unfold usub; rw [if_pos h]

theorem usub_eq_ok {a b v : Nat} (h : usub a b = .ok v) : b ≤ a ∧ v = a - b := by
  unfold usub at h
  split at h
  · refine ⟨‹b ≤ a›, ?_⟩
    cases h
    rfl
  · exact absurd h (by simp)

/-- Full characterization of a successful `buy`. -/
theorem buy_ok (s : MarketState) (caller amount : Nat) (s' : MarketState)
    (r : Nat) (h : buy s caller amount = .ok (s', r)) :
    s.status = STATUS_ACTIVE ∧ s.locked = false ∧
    s' = { s with
      tokensSold := s.tokensSold + calculate_tokens_for_cspr s.curveType
        (amount - amount * s.platformFeeBps / 10000 -
          amount * s.creatorFeeBps / 10000)
        s.tokensSold s.totalSupply s.basePrice s.maxPrice
      csprRaised := s.csprRaised + (amount - amount * s.platformFeeBps / 10000 -
        amount * s.creatorFeeBps / 10000)
      accumulatedFees := s.accumulatedFees + amount * s.creatorFeeBps / 10000
      purchases := alSet s.purchases caller (alGet s.purchases caller +
        (amount - amount * s.platformFeeBps / 10000 -
          amount * s.creatorFeeBps / 10000)) } ∧
    r = calculate_tokens_for_cspr s.curveType
      (amount - amount * s.platformFeeBps / 10000 -
        amount * s.creatorFeeBps / 10000)
      s.tokensSold s.totalSupply s.basePrice s.maxPrice := by
  unfold buy at h
  simp only [throw, throwThe, MonadExceptOf.throw, bind, Except.bind, pure,
    Except.pure] at h
  split at h
  · exact absurd h (by simp)
  case isFalse hst =>
  split at h
  · exact absurd h (by simp)
  case isFalse hlk =>
  split at h
  · exact absurd h (by simp)
  case isFalse hz =>
  split at h
  case h_1 => exact absurd h (by simp)
  case h_2 v heq1 =>
  split at h
  case h_1 => exact absurd h (by simp)
  case h_2 w heq2 =>
  split at h
  · exact absurd h (by simp)
  case isFalse htz =>
  split at h
  case h_1 => exact absurd h (by simp)
  case h_2 rem heq3 =>
  split at h
  · exact absurd h (by simp)
  case isFalse hcap =>
  simp only [Except.ok.injEq, Prod.mk.injEq] at h
  obtain ⟨hs', hr⟩ := h
  obtain ⟨hle1, hv⟩ := usub_eq_ok heq1
  subst hv
  obtain ⟨hle2, hw⟩ := usub_eq_ok heq2
  subst hw
  refine ⟨by omega, ?_, hs'.symm, hr.symm⟩
  revert hlk
  cases s.locked <;> simp

/-- C5: for every successful `buy(funds_in)` in the Active, unlocked state,
with `platform_fee = funds_in·platform_fee_bps/10000`,
`creator_fee = funds_in·creator_fee_bps/10000`,
`net = funds_in − platform_fee − creator_fee` and
`tokens = calculate_tokens_for_cspr(shape, net, sold, supply, base, max)`:
`tokens_sold`, `funds_raised`, `accumulated_creator_fees` and the caller's
`purchases` entry grow by exactly `tokens`, `net`, `creator_fee`, `net`
respectively, and the call returns `tokens`. -/
theorem C5_buy_functional (s : MarketState) (caller amount : Nat) :
    ∀ s' r, buy s caller amount = .ok (s', r) →
      s.status = STATUS_ACTIVE ∧ s.locked = false ∧
      s'.tokensSold = s.tokensSold + calculate_tokens_for_cspr s.curveType
        (amount - amount * s.platformFeeBps / 10000 -
          amount * s.creatorFeeBps / 10000)
        s.tokensSold s.totalSupply s.basePrice s.maxPrice ∧
      s'.csprRaised = s.csprRaised + (amount - amount * s.platformFeeBps / 10000 -
        amount * s.creatorFeeBps / 10000) ∧
      s'.accumulatedFees = s.accumulatedFees + amount * s.creatorFeeBps / 10000 ∧
      alGet s'.purchases caller = alGet s.purchases caller +
        (amount - amount * s.platformFeeBps / 10000 -
          amount * s.creatorFeeBps / 10000) ∧
      r = calculate_tokens_for_cspr s.curveType
        (amount - amount * s.platformFeeBps / 10000 -
          amount * s.creatorFeeBps / 10000)
        s.tokensSold s.totalSupply s.basePrice s.maxPrice := by
  intro s' r h
  obtain ⟨hst, hlk, hs', hr⟩ := buy_ok s caller amount s' r h
  subst hs'
  exact ⟨hst, hlk, rfl, rfl, rfl, alGet_alSet_self _ _ _, hr⟩

theorem C5_buy_functional_witness :
    c2market.status = STATUS_ACTIVE ∧ c2market.locked = false ∧
    c2afterBuy.tokensSold = c2market.tokensSold + calculate_tokens_for_cspr
      c2market.curveType
      (1000000000000 - 1000000000000 * c2market.platformFeeBps / 10000 -
        1000000000000 * c2market.creatorFeeBps / 10000)
      c2market.tokensSold c2market.totalSupply c2market.basePrice
      c2market.maxPrice ∧
    c2afterBuy.csprRaised = c2market.csprRaised +
      (1000000000000 - 1000000000000 * c2market.platformFeeBps / 10000 -
        1000000000000 * c2market.creatorFeeBps / 10000) ∧
    c2afterBuy.accumulatedFees = c2market.accumulatedFees +
      1000000000000 * c2market.creatorFeeBps / 10000 ∧
    alGet c2afterBuy.purchases 1 = alGet c2market.purchases 1 +
      (1000000000000 - 1000000000000 * c2market.platformFeeBps / 10000 -
        1000000000000 * c2market.creatorFeeBps / 10000) ∧
    (1000000000000000000000 : Nat) = calculate_tokens_for_cspr c2market.curveType
      (1000000000000 - 1000000000000 * c2market.platformFeeBps / 10000 -
        1000000000000 * c2market.creatorFeeBps / 10000)
      c2market.tokensSold c2market.totalSupply c2market.basePrice
      c2market.maxPrice :=
  C5_buy_functional c2market 1 1000000000000 c2afterBuy 1000000000000000000000 rfl

/-! ## C10: `sell` never touches the `purchases` dictionary -/

/-- C10: a successful `sell` leaves every `purchases` entry unchanged — it
writes `tokens_sold`, `cspr_raised` and `accumulated_fees` only.  (A failing
`sell` reverts, and a reverted transaction rolls back all of its writes, so
the frame property holds for failing calls by the rollback semantics of the
embedding.) -/
theorem C10_sell_purchases_frame (s : MarketState) (amt : Nat) :
    ∀ s' r, sell s amt = .ok (s', r) → s'.purchases = s.purchases := by
  intro s' r h
  unfold sell at h
  simp only [throw, throwThe, MonadExceptOf.throw, bind, Except.bind, pure,
    Except.pure] at h
  split at h
  · exact absurd h (by simp)
  split at h
  · exact absurd h (by simp)
  split at h
  · exact absurd h (by simp)
  split at h
  · exact absurd h (by simp)
  split at h
  case h_1 => exact absurd h (by simp)
  case h_2 v heq1 =>
  split at h
  case h_1 => exact absurd h (by simp)
  case h_2 w heq2 =>
  split at h
  · exact absurd h (by simp)
  split at h
  case h_1 => exact absurd h (by simp)
  case h_2 nts heq3 =>
  split at h
  case h_1 => exact absurd h (by simp)
  case h_2 ncr heq4 =>
  simp only [Except.ok.injEq, Prod.mk.injEq] at h
  obtain ⟨hs', -⟩ := h
  subst hs'
  rfl

theorem C10_sell_purchases_frame_witness :
    c2afterSell.purchases = c2afterBuy.purchases :=
  C10_sell_purchases_frame c2afterBuy 500000000000000000000 c2afterSell
    503375000000 rfl

/-! ## C7: refund idempotence -/

/-- C7: with the deadline passed, in a non-Graduated unlocked state where the
caller's recorded contribution is `C > 0`, the first `claim_refund` moves the
market to Refunding (from Active), zeroes the caller's entry and returns `C`;
an immediately repeated call fails with `NoRefundAvailable` — and, a reverted
transaction rolling back all writes, leaves the whole market state unchanged. -/
theorem C7_refund_idempotent (s : MarketState) (caller now C : Nat)
    (hlock : s.locked = false) (hst : s.status ≠ STATUS_GRADUATED)
    (hdl : s.deadline ≤ now) (hC : alGet s.purchases caller = C)
    (hCpos : 0 < C) :
    claim_refund s caller now =
      .ok ({ s with
              status := if s.status = STATUS_ACTIVE then STATUS_REFUNDING
                else s.status
              purchases := alSet s.purchases caller 0 }, C) ∧
    alGet (alSet s.purchases caller 0) caller = 0 ∧
    claim_refund { s with
        status := if s.status = STATUS_ACTIVE then STATUS_REFUNDING
          else s.status
        purchases := alSet s.purchases caller 0 } caller now =
      .error .noRefundAvailable := by
  have hz : alGet (alSet s.purchases caller 0) caller = 0 :=
    alGet_alSet_self _ _ _
  refine ⟨?_, hz, ?_⟩
  · unfold claim_refund
    simp only [throw, throwThe, MonadExceptOf.throw, bind, Except.bind, pure,
      Except.pure, hlock, Bool.false_eq_true, if_false, if_neg hst,
      if_neg (by omega : ¬now < s.deadline)]
    split
    case isTrue hact =>
      simp only [if_pos hact, hC, if_neg (by omega : ¬C = 0)]
    case isFalse hact =>
      simp only [if_neg hact, hC, if_neg (by omega : ¬C = 0)]
      rw [hlock]
  · unfold claim_refund
    have hst' : ¬(if s.status = STATUS_ACTIVE then STATUS_REFUNDING
        else s.status) = STATUS_GRADUATED := by
      split
      · rw [STATUS_REFUNDING, STATUS_GRADUATED]; omega
      · exact hst
    simp only [throw, throwThe, MonadExceptOf.throw, bind, Except.bind, pure,
      Except.pure, hlock, Bool.false_eq_true, if_false, if_neg hst',
      if_neg (by omega : ¬now < s.deadline), hz]
    split <;> simp [hz]

theorem C7_refund_idempotent_witness :
    claim_refund c7market 5 10 =
      .ok ({ c7market with
              status := if c7market.status = STATUS_ACTIVE then STATUS_REFUNDING
                else c7market.status
              purchases := alSet c7market.purchases 5 0 }, 7) ∧
    alGet (alSet c7market.purchases 5 0) 5 = 0 ∧
    claim_refund { c7market with
        status := if c7market.status = STATUS_ACTIVE then STATUS_REFUNDING
          else c7market.status
        purchases := alSet c7market.purchases 5 0 } 5 10 =
      .error .noRefundAvailable :=
  C7_refund_idempotent c7market 5 10 7 rfl (by decide) (by decide) rfl
    (by decide)

/-! ## C2: `funds_raised` vs. the sum of `purchases`

`buy` adds the same net amount to both sides, and `graduate`,
`withdraw_fees`, `claim_promo_milestone` touch neither, so the equality is an
invariant of those four operations.  It is *not* an invariant of the full
operation set of the claim: `sell` subtracts the gross quote from
`cspr_raised` without touching any `purchases` entry (and `claim_refund`
zeroes a `purchases` entry without touching `cspr_raised`), so a single
buy–sell sequence already breaks it. -/

theorem graduate_frame (s s' : MarketState) (r : Bool)
    (h : graduate s = .ok (s', r)) :
    s'.csprRaised = s.csprRaised ∧ s'.purchases = s.purchases := by
  unfold graduate at h
  simp only [throw, throwThe, MonadExceptOf.throw, bind, Except.bind, pure,
    Except.pure] at h
  split at h
  · exact absurd h (by simp)
  split at h
  · exact absurd h (by simp)
  split at h
  · exact absurd h (by simp)
  simp only [Except.ok.injEq, Prod.mk.injEq] at h
  obtain ⟨hs', -⟩ := h
  subst hs'
  exact ⟨rfl, rfl⟩

theorem withdraw_fees_frame (s s' : MarketState) (r : Nat)
    (h : withdraw_fees s = .ok (s', r)) :
    s'.csprRaised = s.csprRaised ∧ s'.purchases = s.purchases := by
  unfold withdraw_fees at h
  simp only [throw, throwThe, MonadExceptOf.throw, bind, Except.bind, pure,
    Except.pure] at h
  split at h
  · exact absurd h (by simp)
  simp only [Except.ok.injEq, Prod.mk.injEq] at h
  obtain ⟨hs', -⟩ := h
  subst hs'
  exact ⟨rfl, rfl⟩

theorem claim_promo_frame (s s' : MarketState) (r : Nat)
    (h : claim_promo_milestone s = .ok (s', r)) :
    s'.csprRaised = s.csprRaised ∧ s'.purchases = s.purchases := by
  unfold claim_promo_milestone at h
  simp only [throw, throwThe, MonadExceptOf.throw, bind, Except.bind, pure,
    Except.pure] at h
  split at h
  · exact absurd h (by simp)
  simp only [Except.ok.injEq, Prod.mk.injEq] at h
  obtain ⟨hs', -⟩ := h
  subst hs'
  exact ⟨rfl, rfl⟩

theorem applyOp_preserves_funds_sum (s : MarketState) (op : MarketOp)
    (hs : s.csprRaised = alSum s.purchases) :
    (applyOp s op).csprRaised = alSum (applyOp s op).purchases := by
  cases op with
  | buyOp c a =>
    simp only [applyOp]
    split
    case h_1 p heq =>
      obtain ⟨-, -, hs', -⟩ := buy_ok s c a p.1 p.2 (by rw [heq])
      rw [hs']
      simp only [alSum_alSet_add]
      omega
    case h_2 => exact hs
  | graduateOp =>
    simp only [applyOp]
    split
    case h_1 p heq =>
      obtain ⟨h1, h2⟩ := graduate_frame s p.1 p.2 (by rw [heq])
      rw [h1, h2]; exact hs
    case h_2 => exact hs
  | withdrawFeesOp =>
    simp only [applyOp]
    split
    case h_1 p heq =>
      obtain ⟨h1, h2⟩ := withdraw_fees_frame s p.1 p.2 (by rw [heq])
      rw [h1, h2]; exact hs
    case h_2 => exact hs
  | claimPromoOp =>
    simp only [applyOp]
    split
    case h_1 p heq =>
      obtain ⟨h1, h2⟩ := claim_promo_frame s p.1 p.2 (by rw [heq])
      rw [h1, h2]; exact hs
    case h_2 => exact hs

/-- C2 (amended): in every state reachable from the initial state by any
sequence of `buy`, `graduate`, `withdraw_fees` and `claim_promo_milestone`
operations, `cspr_raised` equals the sum of all `purchases` entries.  (`sell`
and `claim_refund`, which the original claim also allowed, break the
equality — see the counterexample.) -/
theorem C2_funds_sum_invariant (ct : CurveType)
    (gthr pb cb ddl S b m promo : Nat) (ops : List MarketOp) :
    (ops.foldl applyOp
      (MarketState.initial ct gthr pb cb ddl S b m promo)).csprRaised =
    alSum (ops.foldl applyOp
      (MarketState.initial ct gthr pb cb ddl S b m promo)).purchases := by
  suffices h : ∀ (l : List MarketOp) (s : MarketState),
      s.csprRaised = alSum s.purchases →
      (l.foldl applyOp s).csprRaised = alSum (l.foldl applyOp s).purchases by
    exact h ops _ rfl
  intro l
  induction l with
  | nil => intro s hs; exact hs
  | cons op rest ih =>
    intro s hs
    exact ih _ (applyOp_preserves_funds_sum s op hs)

/-- C2 (counterexample): starting from the initial state of a fee-free Linear
market, a single `buy` followed by a successful `sell` yields a reachable
state whose `cspr_raised` (`496625000000`) differs from the sum of the
`purchases` entries (`1000000000000`): `sell` reduces `funds_raised` but no
`contributed` entry. -/
theorem C2_funds_sum_counterexample :
    buy c2market 1 1000000000000 = .ok (c2afterBuy, 1000000000000000000000) ∧
    sell c2afterBuy 500000000000000000000 = .ok (c2afterSell, 503375000000) ∧
    c2afterSell.csprRaised ≠ alSum c2afterSell.purchases := by
  refine ⟨rfl, rfl, by decide⟩

/-! ## C6: the `sell` bookkeeping underflow

`sell` guards `cspr_to_return > cspr_raised` (the *net* return) but then
executes `cspr_raised - cspr_raw` with the *gross* quote.  With a nonzero fee
the gross quote of a full position exceeds the funds the same position put
into the curve (the midpoint quote prices the whole range above the entry
spot price), so the subtraction underflows: the `U512` subtraction panics and
the transaction aborts instead of the structurally-prevented arithmetic the
spec describes.  The run below is fully reachable: one `buy` on a fresh
market with a 2% platform fee, then one `sell` of the whole position that
passes every explicit guard. -/
theorem C6_sell_underflow :
    buy c6market 1 2000000000000 = .ok (c6afterBuy, 1960000000000000000000) ∧
    c6afterBuy.status = STATUS_ACTIVE ∧ c6afterBuy.locked = false ∧
    (1960000000000000000000 : Nat) ≤ c6afterBuy.tokensSold ∧
    c6afterBuy.platformFeeBps + c6afterBuy.creatorFeeBps ≤ 10000 ∧
    (calculate_cspr_for_tokens c6afterBuy.curveType 1960000000000000000000
        c6afterBuy.tokensSold c6afterBuy.totalSupply c6afterBuy.basePrice
        c6afterBuy.maxPrice = 1977287200000) ∧
    (1977287200000 - 1977287200000 * c6afterBuy.platformFeeBps / 10000 -
        1977287200000 * c6afterBuy.creatorFeeBps / 10000
      ≤ c6afterBuy.csprRaised) ∧
    c6afterBuy.csprRaised < 1977287200000 ∧
    sell c6afterBuy 1960000000000000000000 = .error .panicArith := by
  exact ⟨rfl, rfl, rfl, by decide, by decide, by decide, by decide, by decide,
    rfl⟩

end Ectoplasm
